import Mathlib

/-!
Verification of the ChessMoveAnalyzer engine core.

This file gives a shallow embedding, in Lean 4, of the C++ sources of the
ChessMoveAnalyzer repository (bitboard position representation, FEN codec,
move encoding with UCI codec, pseudo-legal and legal move generation,
make-move, the evaluator's endgame switch and full static evaluation,
the alpha-beta search driver, and the PGN move-text interpreter), and
proves or refutes the specification claims about them.

Conventions of the embedding:
* `Bitboard` values are `Nat`s kept below `2 ^ 64`; every left shift that
  could overflow 64 bits is reduced `% 2 ^ 64`, mirroring `uint64_t`
  wraparound.
* C++ `int` quantities that can go negative (square cursors, score values,
  rank/file arithmetic) are embedded as `Int`.
* The sentinel `NO_SQUARE = -1` of the en-passant field is embedded as
  `Option Nat` (`none` = no square).
* Operations whose C++ counterpart has undefined behaviour on some inputs
  (shift by a negative amount or by ≥ 64, out-of-bounds table reads,
  `__builtin_ctzll(0)`) are totalized; each such spot carries a comment.
  All verified paths stay inside the defined region except where a theorem
  says otherwise.
* Strings are embedded as `List Char`.
-/

namespace Chess

/-- Wraparound bound of the C++ `uint64_t` bitboard type. -/
def U64 : Nat := 2 ^ 64

/-- Embedding of `squareBB`: `1ULL << sq`, with `uint64_t` wraparound for
`sq ≥ 64` (the C++ shift is undefined there; verified paths use `sq < 64`). -/
def squareBB (sq : Nat) : Nat := (1 <<< sq) % U64

/-- Embedding of `squareBB` at an `int` square as it appears in the FEN board
scanner; a shift by a negative amount is undefined in C++, totalized to 0. -/
def squareBBI (sq : Int) : Nat := if 0 ≤ sq ∧ sq < 64 then squareBB sq.toNat else 0

/-- Bitwise complement of a bitboard within 64 bits (`~b` on `uint64_t`). -/
def compl64 (b : Nat) : Nat := (U64 - 1) ^^^ b

/-- Bitwise complement within 8 bits (`~mask` applied to the `uint8_t`
castling-rights field). -/
def compl8 (m : Nat) : Nat := 255 ^^^ m

/-- Embedding of `fileOf`: `sq & 7`. -/
def fileOf (sq : Nat) : Nat := sq &&& 7

/-- Embedding of `rankOf`: `sq >> 3`. -/
def rankOf (sq : Nat) : Nat := sq >>> 3

/-- Embedding of `makeSquare`: `rank * 8 + file`. -/
def makeSquare (file rank : Nat) : Nat := rank * 8 + file

/-- Embedding of `popcount` (`__builtin_popcountll`) on a 64-bit bitboard. -/
def popcount (b : Nat) : Nat := ((List.range 64).filter b.testBit).length

/-- Embedding of `lsb` (`__builtin_ctzll`). Undefined in C++ for `b = 0`;
totalized to 64 (the x86 `tzcnt` result). -/
def lsbE (b : Nat) : Nat := (((List.range 64).find? b.testBit).getD 64)

/-- Squares of a bitboard in ascending order. This models the C++ idiom
`while (b) { Square sq = popLsb(b); ... }`, which visits the set bits of
`b` from least to most significant. -/
def bitboardSquares (b : Nat) : List Nat := (List.range 64).filter b.testBit

/-- Embedding of `typeOf`: `(p - 1) % 6` evaluated in C++ `int` arithmetic.
For `p = 0` (`NO_PIECE`) the C++ value is `-1 % 6 = -1`, which becomes 255
in the `uint8_t` enum; for `p ≥ 1` it equals the natural `(p - 1) % 6`.
Note the divisor 6: the piece enum leaves a gap at 7 and 8 (black pieces
start at 9), so black pieces are mapped to wrong types by this function. -/
def typeOf (p : Nat) : Nat := if p = 0 then 255 else (p - 1) % 6

/-- Embedding of `colorOf`: `p < B_PAWN ? WHITE : BLACK` (WHITE = 0). -/
def colorOf (p : Nat) : Nat := if p < 9 then 0 else 1

/-- Embedding of `makePiece`. -/
def makePiece (c pt : Nat) : Nat := (if c = 0 then 1 else 9) + pt

/-- Embedding of `squareToString` for an on-board square. -/
def squareToString (sq : Nat) : List Char :=
  [Char.ofNat (97 + fileOf sq), Char.ofNat (49 + rankOf sq)]

/-- Embedding of `stringToSquare`; the `NO_SQUARE` result is `none`. -/
def stringToSquare (s : List Char) : Option Nat :=
  match s with
  | [a, b] =>
    let file : Int := (a.toNat : Int) - 97
    let rank : Int := (b.toNat : Int) - 49
    if file < 0 ∨ file > 7 ∨ rank < 0 ∨ rank > 7 then none
    else some (makeSquare file.toNat rank.toNat)
  | _ => none

/-- Absolute difference of two squares, as `std::abs(a - b)` on `int`s. -/
def absDiff (a b : Nat) : Nat := ((a : Int) - (b : Int)).natAbs

/-- Move representation. The C++ class packs the four fields into 16 bits
(bits 0–5 `from`, 6–11 `to`, 12–13 promotion, 14–15 type) and compares
moves by that word; we keep the four fields, each already reduced to its
bit width, so structural equality coincides with equality of the packed
word for every move the program builds. -/
structure Move where
  fromSq : Nat
  toSq : Nat
  promoBits : Nat
  typeBits : Nat
deriving DecidableEq, Repr

/-- Embedding of the `Move(from, to, type, promotion)` constructor
(`encodeMove` followed by the masking accessors). -/
def Move.make (f t ty pr : Nat) : Move := ⟨f % 64, t % 64, pr % 4, ty % 4⟩

/-- Embedding of the two-argument `Move(from, to)` constructor
(normal move, promotion bits zero). -/
def Move.makeN (f t : Nat) : Move := Move.make f t 0 0

/-- The `NULL_MOVE` constant (all-zero word). -/
def NULL_MOVE : Move := ⟨0, 0, 0, 0⟩

/-- Embedding of `Move::isNull`. -/
def Move.isNull (m : Move) : Bool := m = NULL_MOVE

/-- Embedding of `Move::isPromotion`. -/
def Move.isPromotion (m : Move) : Bool := m.typeBits = 1

/-- Embedding of `Move::isEnPassant`. -/
def Move.isEnPassant (m : Move) : Bool := m.typeBits = 2

/-- Embedding of `Move::isCastling`. -/
def Move.isCastling (m : Move) : Bool := m.typeBits = 3

/-- Promotion letter appended by `Move::toUCI`. -/
def promoChar (pr : Nat) : Char :=
  if pr = 0 then 'q' else if pr = 1 then 'r' else if pr = 2 then 'b' else 'n'

/-- Embedding of `Move::toUCI`. -/
def Move.toUCI (m : Move) : List Char :=
  if m.isNull then ['0', '0', '0', '0']
  else
    squareToString m.fromSq ++ squareToString m.toSq ++
      (if m.isPromotion then [promoChar m.promoBits] else [])

/-- Embedding of `Move::fromUCI`. -/
def Move.fromUCI (uci : List Char) : Move :=
  if uci.length < 4 ∨ uci.length > 5 then NULL_MOVE
  else
    match stringToSquare (uci.take 2), stringToSquare ((uci.drop 2).take 2) with
    | some f, some t =>
      if uci.length = 5 then
        match (uci.getD 4 ' ').toLower with
        | 'q' => Move.make f t 1 0
        | 'r' => Move.make f t 1 1
        | 'b' => Move.make f t 1 2
        | 'n' => Move.make f t 1 3
        | _ => NULL_MOVE
      else if absDiff t f = 2 ∧ (f = 4 ∨ f = 60) then Move.make f t 3 0
      else Move.makeN f t
    | _, _ => NULL_MOVE

/-- Knight jump offsets of the attack-table initializer. -/
def knightDeltas : List (Int × Int) :=
  [(-2, -1), (-2, 1), (-1, -2), (-1, 2), (1, -2), (1, 2), (2, -1), (2, 1)]

/-- King step offsets of the attack-table initializer. -/
def kingDeltas : List (Int × Int) :=
  [(-1, -1), (-1, 0), (-1, 1), (0, -1), (0, 1), (1, -1), (1, 0), (1, 1)]

/-- Attack bitboard of a jumping piece from `sq`, built exactly like the
table-initializer loops (skip targets falling off the board). -/
def jumpAttacks (deltas : List (Int × Int)) (sq : Nat) : Nat :=
  deltas.foldl
    (fun acc d =>
      let nr : Int := (rankOf sq : Int) + d.1
      let nf : Int := (fileOf sq : Int) + d.2
      if 0 ≤ nr ∧ nr < 8 ∧ 0 ≤ nf ∧ nf < 8 then
        acc ||| squareBB (makeSquare nf.toNat nr.toNat)
      else acc)
    0

/-- Embedding of the precomputed `knightAttacks[sq]` table entry
(identical tables are built in `move_generator.cpp` and
`bitboard_attacks.cpp`). -/
def knightAttacksFn (sq : Nat) : Nat := jumpAttacks knightDeltas sq

/-- Embedding of the precomputed `kingAttacks[sq]` table entry. -/
def kingAttacksFn (sq : Nat) : Nat := jumpAttacks kingDeltas sq

/-- Embedding of the `pawnAttacks[color][sq]` table of `move_generator.cpp`.
That initializer shifts `squareBB(sq)` by 7/9 with no rank guard, so for
squares on the back ranks the `uint64_t` shift wraps (white entries) or
vanishes (black entries); the `% 2^64` reproduces the wraparound. -/
def pawnAttacksMG (us sq : Nat) : Nat :=
  if us = 0 then
    (if fileOf sq > 0 then (squareBB sq <<< 7) % U64 else 0) |||
      (if fileOf sq < 7 then (squareBB sq <<< 9) % U64 else 0)
  else
    (if fileOf sq > 0 then squareBB sq >>> 9 else 0) |||
      (if fileOf sq < 7 then squareBB sq >>> 7 else 0)

/-- Scan of one sliding-piece ray: set each square until and including the
first occupied one, like the `for` loops of `rookAttacksBB` and
`bishopAttacksBB`. -/
def rayScan (squares : List Nat) (occupied : Nat) : Nat :=
  match squares with
  | [] => 0
  | s :: rest =>
    squareBB s ||| (if occupied.testBit s then 0 else rayScan rest occupied)

/-- The four rook rays from `sq` (north, south, east, west), in loop order. -/
def rookRays (sq : Nat) : List (List Nat) :=
  let r := rankOf sq
  let f := fileOf sq
  [(List.range (7 - r)).map (fun i => makeSquare f (r + 1 + i)),
   (List.range r).map (fun i => makeSquare f (r - 1 - i)),
   (List.range (7 - f)).map (fun i => makeSquare (f + 1 + i) r),
   (List.range f).map (fun i => makeSquare (f - 1 - i) r)]

/-- The four bishop rays from `sq` (NE, SE, SW, NW), in loop order. -/
def bishopRays (sq : Nat) : List (List Nat) :=
  let r := rankOf sq
  let f := fileOf sq
  [(List.range (min (7 - r) (7 - f))).map (fun i => makeSquare (f + 1 + i) (r + 1 + i)),
   (List.range (min r (7 - f))).map (fun i => makeSquare (f + 1 + i) (r - 1 - i)),
   (List.range (min r f)).map (fun i => makeSquare (f - 1 - i) (r - 1 - i)),
   (List.range (min (7 - r) f)).map (fun i => makeSquare (f - 1 - i) (r + 1 + i))]

/-- Embedding of `rookAttacksBB` (classical ray scan). -/
def rookAttacksE (sq occupied : Nat) : Nat :=
  (rookRays sq).foldl (fun acc l => acc ||| rayScan l occupied) 0

/-- Embedding of `bishopAttacksBB` (classical ray scan). -/
def bishopAttacksE (sq occupied : Nat) : Nat :=
  (bishopRays sq).foldl (fun acc l => acc ||| rayScan l occupied) 0

/-- File-A and file-H masks from `bitboard_attacks.h`. -/
def FILE_A : Nat := 0x0101010101010101

/-- File-H mask. -/
def FILE_H : Nat := 0x8080808080808080

/-- Embedding of `shift<NORTH_EAST>`: `(b & ~FILE_H) << 9`. -/
def shiftNE (b : Nat) : Nat := ((b &&& compl64 FILE_H) <<< 9) % U64

/-- Embedding of `shift<NORTH_WEST>`: `(b & ~FILE_A) << 7`. -/
def shiftNW (b : Nat) : Nat := ((b &&& compl64 FILE_A) <<< 7) % U64

/-- Embedding of `shift<SOUTH_EAST>`: `(b & ~FILE_H) >> 7`. -/
def shiftSE (b : Nat) : Nat := (b &&& compl64 FILE_H) >>> 7

/-- Embedding of `shift<SOUTH_WEST>`: `(b & ~FILE_A) >> 9`. -/
def shiftSW (b : Nat) : Nat := (b &&& compl64 FILE_A) >>> 9

/-- Position state. `pbb color pieceType` is the bitboard array
`pieceBitboards[color][piece_type]` (only indices `color < 2`,
`pieceType < 6` are ever read); the remaining fields mirror the C++
members, with `enPassantSquare : Option Nat` for the `NO_SQUARE`
sentinel and `Int` for the C++ `int` clocks. -/
structure Position where
  pbb : Nat → Nat → Nat
  sideToMove : Nat
  castlingRights : Nat
  enPassantSquare : Option Nat
  halfmoveClock : Int
  fullmoveNumber : Int
  zobristHash : Nat

/-- Embedding of `Position::getPieceBitboard`. -/
def getPieceBitboard (pos : Position) (piece color : Nat) : Nat := pos.pbb color piece

/-- Embedding of `Position::getColorBitboard` (OR of the six piece boards). -/
def getColorBitboard (pos : Position) (color : Nat) : Nat :=
  (List.range 6).foldl (fun bb pt => bb ||| pos.pbb color pt) 0

/-- Embedding of `Position::getOccupiedBitboard`. -/
def getOccupiedBitboard (pos : Position) : Nat :=
  getColorBitboard pos 0 ||| getColorBitboard pos 1

/-- Scan order of `Position::getPieceAt`: white pawn..king, then black. -/
def pieceSlots : List (Nat × Nat) :=
  [(0, 0), (0, 1), (0, 2), (0, 3), (0, 4), (0, 5),
   (1, 0), (1, 1), (1, 2), (1, 3), (1, 4), (1, 5)]

/-- Embedding of `Position::getPieceAt`: first matching `(color, type)` slot
wins; `NO_PIECE = 0` when the square is empty. -/
def getPieceAt (pos : Position) (square : Nat) : Nat :=
  match pieceSlots.find? (fun ct => (pos.pbb ct.1 ct.2).testBit square) with
  | some ct => makePiece ct.1 ct.2
  | none => 0

/-- Embedding of `Position::putPiece`. -/
def putPiece (pos : Position) (square piece color : Nat) : Position :=
  { pos with pbb := fun c t =>
      if c = color ∧ t = piece then pos.pbb c t ||| squareBB square else pos.pbb c t }

/-- Embedding of `Position::putPiece` at the `int` square cursor of the FEN
board scanner (placing at a square outside the board would index the shift
UB in C++; totalized to a no-op). -/
def putPieceI (pos : Position) (square : Int) (piece color : Nat) : Position :=
  if 0 ≤ square ∧ square < 64 then putPiece pos square.toNat piece color else pos

/-- Embedding of `Position::clearSquare` (clears the bit in all 12 boards). -/
def clearSquare (pos : Position) (square : Nat) : Position :=
  { pos with pbb := fun c t => pos.pbb c t &&& compl64 (squareBB square) }

/-- Whitespace test of `std::istream` extraction (`operator>>`). -/
def isWS (c : Char) : Bool := c = ' ' ∨ c = '\t' ∨ c = '\n' ∨ c = '\r'

/-- Helper of `splitWS`: accumulate the current token (reversed). -/
def splitWSAux : List Char → List Char → List (List Char)
  | [], acc => if acc = [] then [] else [acc.reverse]
  | c :: rest, acc =>
    if isWS c then
      if acc = [] then splitWSAux rest [] else acc.reverse :: splitWSAux rest []
    else splitWSAux rest (c :: acc)

/-- Whitespace tokenization, as a chain of `stream >> token` extractions. -/
def splitWS (s : List Char) : List (List Char) := splitWSAux s []

/-- Decimal digits of a natural number. -/
def natToChars (n : Nat) : List Char := Nat.toDigits 10 n

/-- Decimal rendering of a C++ `int` (used for the FEN clock fields). -/
def intToChars (n : Int) : List Char :=
  if n < 0 then '-' :: natToChars n.natAbs else natToChars n.toNat

/-- Leading-digits value of a token (the part `operator>>` consumes). -/
def parseNatPrefix : List Char → Nat → Nat
  | [], acc => acc
  | c :: rest, acc =>
    if c.isDigit then parseNatPrefix rest (acc * 10 + (c.toNat - 48)) else acc

/-- Embedding of `stream >> intVariable` on one whitespace-separated token
(optional sign, then leading digits; extraction failure stores 0). -/
def parseIntTok (t : List Char) : Int :=
  match t with
  | '-' :: rest => -(parseNatPrefix rest 0 : Int)
  | _ => (parseNatPrefix t 0 : Int)

/-- Piece letter recognized by the FEN board parser (`switch` over the
lowercased character); `none` is the `default: continue` case. -/
def charToPiece (c : Char) : Option (Nat × Nat) :=
  let col : Nat := if c.isUpper then 0 else 1
  match c.toLower with
  | 'p' => some (col, 0)
  | 'n' => some (col, 1)
  | 'b' => some (col, 2)
  | 'r' => some (col, 3)
  | 'q' => some (col, 4)
  | 'k' => some (col, 5)
  | _ => none

/-- Board-field scanner of `Position::initializeFromFEN`; the square cursor
is a C++ `int` starting at `A8 = 56`, decremented by 16 at each `/` and
advanced by digits and piece placements. -/
def parseBoardChars : List Char → Int → Position → Position
  | [], _, pos => pos
  | c :: rest, sq, pos =>
    if c = '/' then parseBoardChars rest (sq - 16) pos
    else if c.isDigit then parseBoardChars rest (sq + ((c.toNat : Int) - 48)) pos
    else
      match charToPiece c with
      | some ct => parseBoardChars rest (sq + 1) (putPieceI pos sq ct.2 ct.1)
      | none => parseBoardChars rest sq pos

/-- One castling-rights character of the FEN castling field. -/
def castlingCharBit (c : Char) : Nat :=
  if c = 'K' then 1 else if c = 'Q' then 2 else if c = 'k' then 4
  else if c = 'q' then 8 else 0

/-- Position with cleared bitboards, before the FEN fields are filled in. -/
def emptyBoardPos : Position :=
  ⟨fun _ _ => 0, 0, 0, none, 0, 0, 0⟩

/-- Embedding of `Position::initializeFromFEN` (also the FEN constructor
`Position(fen)` and the free function `from_fen` of the spec). -/
def initializeFromFEN (fen : List Char) : Position :=
  let fields := splitWS fen
  let board := fields.getD 0 []
  let color := fields.getD 1 []
  let castling := fields.getD 2 []
  let enPassant := fields.getD 3 []
  let p0 := parseBoardChars board 56 emptyBoardPos
  { p0 with
    sideToMove := if color = ['w'] then 0 else 1,
    castlingRights := castling.foldl (fun r c => r ||| castlingCharBit c) 0,
    enPassantSquare := if enPassant = ['-'] then none else stringToSquare enPassant,
    halfmoveClock := parseIntTok (fields.getD 4 []),
    fullmoveNumber := parseIntTok (fields.getD 5 []),
    zobristHash := 0 }

/-- The `STARTING_FEN` constant. -/
def STARTING_FEN : List Char :=
  ("rnbqkbnr/pppppppp/8/8/8/8/PPPPPPPP/RNBQKBNR w KQkq - 0 1".toList)

/-- Lower-case piece letter emitted by `Position::toFEN` for a piece type
(the `default` branch emits a question mark). -/
def pieceTypeChar (t : Nat) : Char :=
  if t = 0 then 'p' else if t = 1 then 'n' else if t = 2 then 'b'
  else if t = 3 then 'r' else if t = 4 then 'q' else if t = 5 then 'k' else '?'

/-- Piece letter emitted by `Position::toFEN` (upper case for white). -/
def pieceCharFEN (p : Nat) : Char :=
  let c := pieceTypeChar (typeOf p)
  if colorOf p = 0 then c.toUpper else c

/-- One rank of the `Position::toFEN` board loop, walking the listed files
with a pending empty-square count. -/
def emitRankAux (pos : Position) (rank : Nat) : List Nat → Nat → List Char
  | [], ec => if ec > 0 then [Char.ofNat (48 + ec)] else []
  | file :: rest, ec =>
    let p := getPieceAt pos (makeSquare file rank)
    if p = 0 then emitRankAux pos rank rest (ec + 1)
    else
      (if ec > 0 then [Char.ofNat (48 + ec)] else []) ++
        pieceCharFEN p :: emitRankAux pos rank rest 0

/-- Board characters of one rank in `Position::toFEN`. -/
def emitRank (pos : Position) (rank : Nat) : List Char :=
  emitRankAux pos rank (List.range 8) 0

/-- Castling field of `Position::toFEN`. -/
def emitCastling (rights : Nat) : List Char :=
  if rights = 0 then ['-']
  else
    (if rights &&& 1 ≠ 0 then ['K'] else []) ++
      (if rights &&& 2 ≠ 0 then ['Q'] else []) ++
      (if rights &&& 4 ≠ 0 then ['k'] else []) ++
      (if rights &&& 8 ≠ 0 then ['q'] else [])

/-- En-passant field of `Position::toFEN` (`squareToString` or a dash). -/
def emitEP (ep : Option Nat) : List Char :=
  match ep with
  | none => ['-']
  | some sq => squareToString sq

/-- Embedding of `Position::toFEN`. -/
def toFEN (pos : Position) : List Char :=
  List.intercalate [' ']
    [List.intercalate ['/'] (((List.range 8).reverse).map (emitRank pos)),
     [if pos.sideToMove = 0 then 'w' else 'b'],
     emitCastling pos.castlingRights,
     emitEP pos.enPassantSquare,
     intToChars pos.halfmoveClock,
     intToChars pos.fullmoveNumber]

/-- Bitboard-array comparison of `Position::operator==` (`std::array`
equality over the 2×6 entries). -/
def pbbEq (p q : Position) : Bool :=
  (List.range 2).all (fun c => (List.range 6).all (fun t => p.pbb c t == q.pbb c t))

/-- Embedding of `Position::operator==`: piece bitboards, side to move,
castling rights and en-passant square; clocks and hash are not compared. -/
def posEq (p q : Position) : Bool :=
  pbbEq p q && p.sideToMove == q.sideToMove &&
    p.castlingRights == q.castlingRights && p.enPassantSquare == q.enPassantSquare

/-- Embedding of `Position::isSquareAttacked`. -/
def isSquareAttacked (pos : Position) (square byColor : Nat) : Bool :=
  let occupied := getOccupiedBitboard pos
  let enemyPawns := getPieceBitboard pos 0 byColor
  let pawnHit :=
    if byColor = 0 then
      (shiftSW (squareBB square) ||| shiftSE (squareBB square)) &&& enemyPawns ≠ 0
    else
      (shiftNW (squareBB square) ||| shiftNE (squareBB square)) &&& enemyPawns ≠ 0
  pawnHit ||
    (knightAttacksFn square &&& getPieceBitboard pos 1 byColor ≠ 0) ||
    (bishopAttacksE square occupied &&&
      (getPieceBitboard pos 2 byColor ||| getPieceBitboard pos 4 byColor) ≠ 0) ||
    (rookAttacksE square occupied &&&
      (getPieceBitboard pos 3 byColor ||| getPieceBitboard pos 4 byColor) ≠ 0) ||
    (kingAttacksFn square &&& getPieceBitboard pos 5 byColor ≠ 0)

/-- Embedding of `Position::isInCheck` (`lsb` of the king board is undefined
in C++ when the king is absent; `lsbE` totalizes it to 64). -/
def isInCheck (pos : Position) : Bool :=
  isSquareAttacked pos (lsbE (getPieceBitboard pos 5 pos.sideToMove)) (pos.sideToMove ^^^ 1)

/-- Promoted piece type selected by the `switch (move.promotionType())` of
`Position::makeMove` (queen, rook, bishop, knight). -/
def promotedPieceType (pr : Nat) : Nat :=
  if pr = 0 then 4 else if pr = 1 then 3 else if pr = 2 then 2 else 1

/-- Embedding of `Position::makeMove` (the real one in
`position_moves.cpp`), step for step: clear source, capture handling with
halfmove clock, move-type-specific placement, castling-rights update,
en-passant square, side flip, fullmove number, hash stub increment. -/
def makeMove (pos : Position) (m : Move) : Position :=
  let f := m.fromSq
  let t := m.toSq
  let movedPiece := getPieceAt pos f
  let capturedPiece := getPieceAt pos t
  let pieceType := typeOf movedPiece
  let us := pos.sideToMove
  let p1 := clearSquare pos f
  let p2 :=
    if capturedPiece ≠ 0 then { clearSquare p1 t with halfmoveClock := 0 }
    else { p1 with halfmoveClock := p1.halfmoveClock + 1 }
  let p3 :=
    if m.isCastling then
      let pk := putPiece p2 t 5 us
      if t > f then
        putPiece (clearSquare pk (if us = 0 then 7 else 63)) (if us = 0 then 5 else 61) 3 us
      else
        putPiece (clearSquare pk (if us = 0 then 0 else 56)) (if us = 0 then 3 else 59) 3 us
    else if m.isEnPassant then
      let pp := putPiece p2 t 0 us
      { clearSquare pp (if us = 0 then t - 8 else t + 8) with halfmoveClock := 0 }
    else if m.isPromotion then
      { putPiece p2 t (promotedPieceType m.promoBits) us with halfmoveClock := 0 }
    else
      let pn := putPiece p2 t pieceType us
      if pieceType = 0 then { pn with halfmoveClock := 0 } else pn
  let r1 :=
    if pieceType = 5 then
      if us = 0 then p3.castlingRights &&& compl8 3 else p3.castlingRights &&& compl8 12
    else if pieceType = 3 then
      if f = 0 then p3.castlingRights &&& compl8 2
      else if f = 7 then p3.castlingRights &&& compl8 1
      else if f = 56 then p3.castlingRights &&& compl8 8
      else if f = 63 then p3.castlingRights &&& compl8 4
      else p3.castlingRights
    else p3.castlingRights
  let r2 :=
    if t = 0 then r1 &&& compl8 2
    else if t = 7 then r1 &&& compl8 1
    else if t = 56 then r1 &&& compl8 8
    else if t = 63 then r1 &&& compl8 4
    else r1
  { p3 with
    castlingRights := r2,
    enPassantSquare :=
      if pieceType = 0 ∧ absDiff t f = 16 then
        some (if us = 0 then f + 8 else f - 8)
      else none,
    sideToMove := us ^^^ 1,
    fullmoveNumber := if us = 1 then p3.fullmoveNumber + 1 else p3.fullmoveNumber,
    zobristHash := p3.zobristHash + 1 }

/-- Embedding of `Position::isDraw` (50-move rule; the repetition and
material checks are TODO in the source). -/
def isDraw (pos : Position) : Bool := pos.halfmoveClock ≥ 100

/-- Four promotion moves emitted for a pawn reaching the last rank, in the
source order queen, rook, bishop, knight. -/
def promotionMoves (f t : Nat) : List Move :=
  [Move.make f t 1 0, Move.make f t 1 1, Move.make f t 1 2, Move.make f t 1 3]

/-- Rank-2 mask of the side to move (home rank of its pawns). -/
def rank2Mask (us : Nat) : Nat :=
  if us = 0 then 0xFF00 else 0x00FF000000000000

/-- Rank-7 mask of the side to move (promotion-departure rank). -/
def rank7Mask (us : Nat) : Nat :=
  if us = 0 then 0x00FF000000000000 else 0xFF00

/-- Push moves of one pawn in `generatePawnMoves`: single push if the square
ahead is empty (promotions from the seventh rank), plus the double push
from the home rank. The target square is C++ `int` arithmetic
(`from + pawnPush`); for a pawn on the back rank it would leave the board,
which is shift UB in C++ — `squareBBI` totalizes the test. -/
def pawnPushMoves (us occupied f : Nat) : List Move :=
  let push : Int := if us = 0 then 8 else -8
  let dbl : Int := if us = 0 then 16 else -16
  let t : Int := (f : Int) + push
  if occupied &&& squareBBI t = 0 then
    if squareBB f &&& rank7Mask us ≠ 0 then promotionMoves f t.toNat
    else
      Move.makeN f t.toNat ::
        (if squareBB f &&& rank2Mask us ≠ 0 ∧ occupied &&& squareBBI ((f : Int) + dbl) = 0 then
          [Move.makeN f ((f : Int) + dbl).toNat]
        else [])
  else []

/-- Capture moves of one pawn in `generatePawnMoves` (ascending capture
squares, promotions from the seventh rank). -/
def pawnCaptureMoves (us theirPieces f : Nat) : List Move :=
  (bitboardSquares (pawnAttacksMG us f &&& theirPieces)).flatMap
    (fun cap =>
      if squareBB f &&& rank7Mask us ≠ 0 then promotionMoves f cap
      else [Move.makeN f cap])

/-- En-passant move of one pawn in `generatePawnMoves`. -/
def pawnEPMoves (pos : Position) (us f : Nat) : List Move :=
  match pos.enPassantSquare with
  | some e => if pawnAttacksMG us f &&& squareBB e ≠ 0 then [Move.make f e 2 0] else []
  | none => []

/-- Embedding of `MoveGenerator::Impl::generatePawnMoves`: per pawn, pushes
then captures then en passant. -/
def generatePawnMoves (pos : Position) (us theirPieces occupied : Nat) : List Move :=
  (bitboardSquares (getPieceBitboard pos 0 us)).flatMap
    (fun f => pawnPushMoves us occupied f ++ pawnCaptureMoves us theirPieces f ++
      pawnEPMoves pos us f)

/-- Embedding of the `generatePieceMoves<PT>` template: for each piece of
the given board, normal moves to every attacked square not holding an own
piece. The attack function is the template's `getAttacks<PT>`. -/
def generatePieceMovesBy (attacks : Nat → Nat → Nat) (pieces ourPieces occupied : Nat) :
    List Move :=
  (bitboardSquares pieces).flatMap
    (fun f =>
      (bitboardSquares (attacks f occupied &&& compl64 ourPieces)).map (Move.makeN f))

/-- Embedding of `generateKingMoves`: moves of the king found by `lsb` of
the king board (`lsb(0)` is UB in C++; totalized to 64, where the jump
helper yields squares of rank 7 — harmless off the verified paths). -/
def generateKingMoves (pos : Position) (us ourPieces : Nat) : List Move :=
  let kingSquare := lsbE (getPieceBitboard pos 5 us)
  (bitboardSquares (kingAttacksFn kingSquare &&& compl64 ourPieces)).map
    (Move.makeN kingSquare)

/-- Embedding of `generateCastlingMoves`: nothing when in check; then the
kingside and queenside guards of the side to move, exactly as in the
source (note it tests `isInCheck` — the actual king square — and the two
squares next to the king's home square, never the home square itself; the
source also computes `lsb` of the king board into a dead variable). -/
def generateCastlingMoves (pos : Position) (us occupied : Nat) : List Move :=
  if isInCheck pos then []
  else
    if us = 0 then
      (if pos.castlingRights &&& 1 ≠ 0 ∧ occupied &&& (squareBB 5 ||| squareBB 6) = 0 ∧
          isSquareAttacked pos 5 1 = false ∧ isSquareAttacked pos 6 1 = false then
        [Move.make 4 6 3 0]
      else []) ++
      (if pos.castlingRights &&& 2 ≠ 0 ∧ occupied &&& (squareBB 1 ||| squareBB 2 ||| squareBB 3) = 0 ∧
          isSquareAttacked pos 2 1 = false ∧ isSquareAttacked pos 3 1 = false then
        [Move.make 4 2 3 0]
      else [])
    else
      (if pos.castlingRights &&& 4 ≠ 0 ∧ occupied &&& (squareBB 61 ||| squareBB 62) = 0 ∧
          isSquareAttacked pos 61 0 = false ∧ isSquareAttacked pos 62 0 = false then
        [Move.make 60 62 3 0]
      else []) ++
      (if pos.castlingRights &&& 8 ≠ 0 ∧ occupied &&& (squareBB 57 ||| squareBB 58 ||| squareBB 59) = 0 ∧
          isSquareAttacked pos 58 0 = false ∧ isSquareAttacked pos 59 0 = false then
        [Move.make 60 58 3 0]
      else [])

/-- Queen attack set of the `getAttacks<QUEEN>` template case. -/
def queenAttacksE (sq occupied : Nat) : Nat :=
  bishopAttacksE sq occupied ||| rookAttacksE sq occupied

/-- Knight attack set with the occupancy parameter of the template
signature (ignored for knights). -/
def knightAttacksT (sq : Nat) (_occupied : Nat) : Nat := knightAttacksFn sq

/-- Embedding of `MoveGenerator::Impl::generateAllMoves`: pawns, knights,
bishops, rooks, queens, king, castling — in that order. -/
def generateAllMoves (pos : Position) : List Move :=
  let us := pos.sideToMove
  let ourPieces := getColorBitboard pos us
  let theirPieces := getColorBitboard pos (if us = 0 then 1 else 0)
  let occupied := ourPieces ||| theirPieces
  generatePawnMoves pos us theirPieces occupied ++
    generatePieceMovesBy knightAttacksT (getPieceBitboard pos 1 us) ourPieces occupied ++
    generatePieceMovesBy bishopAttacksE (getPieceBitboard pos 2 us) ourPieces occupied ++
    generatePieceMovesBy rookAttacksE (getPieceBitboard pos 3 us) ourPieces occupied ++
    generatePieceMovesBy queenAttacksE (getPieceBitboard pos 4 us) ourPieces occupied ++
    generateKingMoves pos us ourPieces ++
    generateCastlingMoves pos us occupied

/-- Embedding of `MoveGenerator::generatePseudoLegalMoves`. -/
def generatePseudoLegalMoves (pos : Position) : List Move := generateAllMoves pos

/-- Embedding of `MoveGenerator::generateLegalMoves`: keep the pseudo-legal
moves whose successor position is not "in check" (note the successor's
side to move has already flipped, so this tests the opponent's king). -/
def generateLegalMoves (pos : Position) : List Move :=
  (generatePseudoLegalMoves pos).filter (fun m => !isInCheck (makeMove pos m))

/-- Capture test of `MoveGenerator::generateCaptures`: destination occupied
or en passant. -/
def isCaptureMoveB (pos : Position) (m : Move) : Bool :=
  getPieceAt pos m.toSq != 0 || m.isEnPassant

/-- Embedding of `MoveGenerator::generateCaptures` (`std::copy_if`). -/
def generateCaptures (pos : Position) : List Move :=
  (generatePseudoLegalMoves pos).filter (isCaptureMoveB pos)

/-- Quiet test of `MoveGenerator::generateQuietMoves`: destination empty and
not en passant. -/
def isQuietMoveB (pos : Position) (m : Move) : Bool :=
  getPieceAt pos m.toSq == 0 && !m.isEnPassant

/-- Embedding of `MoveGenerator::generateQuietMoves` (`std::copy_if`). -/
def generateQuietMoves (pos : Position) : List Move :=
  (generatePseudoLegalMoves pos).filter (isQuietMoveB pos)

/-- Embedding of `MoveGenerator::isLegal` (make the move, test the
resulting `isInCheck`). -/
def isLegal (pos : Position) (m : Move) : Bool := !isInCheck (makeMove pos m)

/-- Piece values of the `PieceValue` namespace, indexed by piece type. -/
def pieceValue (t : Nat) : Int :=
  if t = 0 then 100 else if t = 1 then 320 else if t = 2 then 330
  else if t = 3 then 500 else if t = 4 then 900 else if t = 5 then 20000 else 0

/-- The `pawnTable` piece-square table. -/
def pawnTable : List Int :=
  [0, 0, 0, 0, 0, 0, 0, 0,
   50, 50, 50, 50, 50, 50, 50, 50,
   10, 10, 20, 30, 30, 20, 10, 10,
   5, 5, 10, 25, 25, 10, 5, 5,
   0, 0, 0, 20, 20, 0, 0, 0,
   5, -5, -10, 0, 0, -10, -5, 5,
   5, 10, 10, -20, -20, 10, 10, 5,
   0, 0, 0, 0, 0, 0, 0, 0]

/-- The `knightTable` piece-square table. -/
def knightTable : List Int :=
  [-50, -40, -30, -30, -30, -30, -40, -50,
   -40, -20, 0, 0, 0, 0, -20, -40,
   -30, 0, 10, 15, 15, 10, 0, -30,
   -30, 5, 15, 20, 20, 15, 5, -30,
   -30, 0, 15, 20, 20, 15, 0, -30,
   -30, 5, 10, 15, 15, 10, 5, -30,
   -40, -20, 0, 5, 5, 0, -20, -40,
   -50, -40, -30, -30, -30, -30, -40, -50]

/-- The `bishopTable` piece-square table. -/
def bishopTable : List Int :=
  [-20, -10, -10, -10, -10, -10, -10, -20,
   -10, 0, 0, 0, 0, 0, 0, -10,
   -10, 0, 5, 10, 10, 5, 0, -10,
   -10, 5, 5, 10, 10, 5, 5, -10,
   -10, 0, 10, 10, 10, 10, 0, -10,
   -10, 10, 10, 10, 10, 10, 10, -10,
   -10, 5, 0, 0, 0, 0, 5, -10,
   -20, -10, -10, -10, -10, -10, -10, -20]

/-- The `rookTable` piece-square table. -/
def rookTable : List Int :=
  [0, 0, 0, 0, 0, 0, 0, 0,
   5, 10, 10, 10, 10, 10, 10, 5,
   -5, 0, 0, 0, 0, 0, 0, -5,
   -5, 0, 0, 0, 0, 0, 0, -5,
   -5, 0, 0, 0, 0, 0, 0, -5,
   -5, 0, 0, 0, 0, 0, 0, -5,
   -5, 0, 0, 0, 0, 0, 0, -5,
   0, 0, 0, 5, 5, 0, 0, 0]

/-- The `queenTable` piece-square table. -/
def queenTable : List Int :=
  [-20, -10, -10, -5, -5, -10, -10, -20,
   -10, 0, 0, 0, 0, 0, 0, -10,
   -10, 0, 5, 5, 5, 5, 0, -10,
   -5, 0, 5, 5, 5, 5, 0, -5,
   0, 0, 5, 5, 5, 5, 0, -5,
   -10, 5, 5, 5, 5, 5, 0, -10,
   -10, 0, 5, 0, 0, 0, 0, -10,
   -20, -10, -10, -5, -5, -10, -10, -20]

/-- The `kingMiddlegameTable` piece-square table. -/
def kingMiddlegameTable : List Int :=
  [-30, -40, -40, -50, -50, -40, -40, -30,
   -30, -40, -40, -50, -50, -40, -40, -30,
   -30, -40, -40, -50, -50, -40, -40, -30,
   -30, -40, -40, -50, -50, -40, -40, -30,
   -20, -30, -30, -40, -40, -30, -30, -20,
   -10, -20, -20, -20, -20, -20, -20, -10,
   20, 20, 0, 0, 0, 0, 20, 20,
   20, 30, 10, 0, 0, 10, 30, 20]

/-- The `kingEndgameTable` piece-square table. -/
def kingEndgameTable : List Int :=
  [-50, -40, -30, -20, -20, -30, -40, -50,
   -30, -20, -10, 0, 0, -10, -20, -30,
   -30, -10, 20, 30, 30, 20, -10, -30,
   -30, -10, 30, 40, 40, 30, -10, -30,
   -30, -10, 30, 40, 40, 30, -10, -30,
   -30, -10, 20, 30, 30, 20, -10, -30,
   -30, -30, 0, 0, 0, 0, -30, -30,
   -50, -30, -30, -30, -30, -30, -30, -50]

/-- Embedding of `getPieceSquareValue` (vertical flip `sq ^ 56` for black). -/
def getPieceSquareValue (piece sq color : Nat) (endgame : Bool) : Int :=
  let s := if color = 1 then sq ^^^ 56 else sq
  if piece = 0 then pawnTable.getD s 0
  else if piece = 1 then knightTable.getD s 0
  else if piece = 2 then bishopTable.getD s 0
  else if piece = 3 then rookTable.getD s 0
  else if piece = 4 then queenTable.getD s 0
  else if piece = 5 then
    if endgame then kingEndgameTable.getD s 0 else kingMiddlegameTable.getD s 0
  else 0

/-- Embedding of `Evaluator::Impl::isEndgame`: the total of the queen and
rook material of both sides is below 2000 (the source comment says
"less than 2 rooks + 2 queens"; knights and bishops are not counted). -/
def isEndgame (pos : Position) : Bool :=
  (popcount (getPieceBitboard pos 4 0) : Int) * 900 +
      (popcount (getPieceBitboard pos 4 1) : Int) * 900 +
      (popcount (getPieceBitboard pos 3 0) : Int) * 500 +
      (popcount (getPieceBitboard pos 3 1) : Int) * 500 < 2000

/-- Embedding of `Evaluator::Impl::getMaterialBalance`. -/
def getMaterialBalance (pos : Position) : Int :=
  ((popcount (getPieceBitboard pos 0 0) : Int) - (popcount (getPieceBitboard pos 0 1) : Int)) * 100 +
    ((popcount (getPieceBitboard pos 1 0) : Int) - (popcount (getPieceBitboard pos 1 1) : Int)) * 320 +
    ((popcount (getPieceBitboard pos 2 0) : Int) - (popcount (getPieceBitboard pos 2 1) : Int)) * 330 +
    ((popcount (getPieceBitboard pos 3 0) : Int) - (popcount (getPieceBitboard pos 3 1) : Int)) * 500 +
    ((popcount (getPieceBitboard pos 4 0) : Int) - (popcount (getPieceBitboard pos 4 1) : Int)) * 900

/-- Piece-square total of one color in `getPieceSquareScore`. -/
def pieceSquareColorScore (pos : Position) (c : Nat) (endgame : Bool) : Int :=
  (List.range 6).foldl
    (fun acc pt =>
      (bitboardSquares (getPieceBitboard pos pt c)).foldl
        (fun a sq => a + getPieceSquareValue pt sq c endgame) acc)
    0

/-- Embedding of `Evaluator::Impl::getPieceSquareScore`. -/
def getPieceSquareScore (pos : Position) : Int :=
  let endgame := isEndgame pos
  pieceSquareColorScore pos 0 endgame - pieceSquareColorScore pos 1 endgame

/-- Forward span of one pawn in `getPassedPawns` (own file and the two
adjacent files, every rank strictly ahead). -/
def pawnFrontSpan (us sq : Nat) : Nat :=
  let f := fileOf sq
  let r := rankOf sq
  let ranksAhead := if us = 0 then (List.range (7 - r)).map (fun i => r + 1 + i)
                    else (List.range r).map (fun i => r - 1 - i)
  ranksAhead.foldl
    (fun acc rr =>
      (if f > 0 then acc ||| squareBB (makeSquare (f - 1) rr) else acc) |||
        squareBB (makeSquare f rr) |||
        (if f < 7 then squareBB (makeSquare (f + 1) rr) else 0))
    0

/-- Embedding of `getPassedPawns`. -/
def getPassedPawns (ourPawns theirPawns us : Nat) : Nat :=
  (bitboardSquares ourPawns).foldl
    (fun acc sq => if pawnFrontSpan us sq &&& theirPawns = 0 then acc ||| squareBB sq else acc)
    0

/-- Embedding of `Evaluator::Impl::evaluatePawnStructure`. -/
def evaluatePawnStructure (pos : Position) : Int :=
  let whitePawns := getPieceBitboard pos 0 0
  let blackPawns := getPieceBitboard pos 0 1
  let doubled :=
    (List.range 8).foldl
      (fun acc file =>
        let fm := FILE_A <<< file
        let w := popcount (whitePawns &&& fm)
        let b := popcount (blackPawns &&& fm)
        acc + (if w > 1 then -(10 : Int) * ((w : Int) - 1) else 0) +
          (if b > 1 then (10 : Int) * ((b : Int) - 1) else 0))
      0
  let isolated :=
    (List.range 8).foldl
      (fun acc file =>
        let fm := FILE_A <<< file
        let adj := (if file > 0 then FILE_A <<< (file - 1) else 0) |||
          (if file < 7 then FILE_A <<< (file + 1) else 0)
        acc + (if whitePawns &&& fm ≠ 0 ∧ whitePawns &&& adj = 0 then -(15 : Int) else 0) +
          (if blackPawns &&& fm ≠ 0 ∧ blackPawns &&& adj = 0 then (15 : Int) else 0))
      0
  let passedW :=
    (bitboardSquares (getPassedPawns whitePawns blackPawns 0)).foldl
      (fun acc sq => acc + (10 + (rankOf sq : Int) * (rankOf sq : Int) * 5)) 0
  let passedB :=
    (bitboardSquares (getPassedPawns blackPawns whitePawns 1)).foldl
      (fun acc sq =>
        acc - (10 + ((7 : Int) - rankOf sq) * ((7 : Int) - rankOf sq) * 5)) 0
  doubled + isolated + passedW + passedB

/-- Embedding of `Evaluator::Impl::evaluateMobility` (knights ×4,
bishops ×3). -/
def evaluateMobility (pos : Position) : Int :=
  let occupied := getOccupiedBitboard pos
  let kn :=
    (bitboardSquares (getPieceBitboard pos 1 0)).foldl
      (fun acc sq =>
        acc + (popcount (knightAttacksFn sq &&& compl64 (getColorBitboard pos 0)) : Int) * 4) 0
  let knB :=
    (bitboardSquares (getPieceBitboard pos 1 1)).foldl
      (fun acc sq =>
        acc - (popcount (knightAttacksFn sq &&& compl64 (getColorBitboard pos 1)) : Int) * 4) 0
  let bi :=
    (bitboardSquares (getPieceBitboard pos 2 0)).foldl
      (fun acc sq =>
        acc + (popcount (bishopAttacksE sq occupied &&& compl64 (getColorBitboard pos 0)) : Int) * 3) 0
  let biB :=
    (bitboardSquares (getPieceBitboard pos 2 1)).foldl
      (fun acc sq =>
        acc - (popcount (bishopAttacksE sq occupied &&& compl64 (getColorBitboard pos 1)) : Int) * 3) 0
  kn + knB + bi + biB

/-- Embedding of `Evaluator::Impl::evaluateKingSafety` for one color. -/
def evaluateKingSafety (pos : Position) (color : Nat) : Int :=
  let kingSquare := lsbE (getPieceBitboard pos 5 color)
  let kingZone := kingAttacksFn kingSquare
  let ourPawns := getPieceBitboard pos 0 color
  let shield := (popcount (kingZone &&& ourPawns) : Int) * 10
  let kf := fileOf kingSquare
  let lo := kf - 1
  let hi := min 7 (kf + 1)
  let openFiles :=
    ((List.range (hi + 1 - lo)).map (fun i => lo + i)).foldl
      (fun acc f => if ourPawns &&& (FILE_A <<< f) = 0 then acc - 20 else acc) 0
  shield + openFiles

/-- The four center squares d4, e4, d5, e5 of `evaluateCenterControl`. -/
def centerSquares : List Nat := [makeSquare 3 3, makeSquare 4 3, makeSquare 3 4, makeSquare 4 4]

/-- Embedding of `Evaluator::Impl::evaluateCenterControl`. -/
def evaluateCenterControl (pos : Position) : Int :=
  let whiteControl :=
    centerSquares.foldl
      (fun acc sq => if isSquareAttacked pos sq 0 then acc ||| squareBB sq else acc) 0
  let blackControl :=
    centerSquares.foldl
      (fun acc sq => if isSquareAttacked pos sq 1 then acc ||| squareBB sq else acc) 0
  let centerBB := centerSquares.foldl (fun acc sq => acc ||| squareBB sq) 0
  (popcount whiteControl : Int) * 10 - (popcount blackControl : Int) * 10 +
    (popcount (centerBB &&& getColorBitboard pos 0) : Int) * 15 -
    (popcount (centerBB &&& getColorBitboard pos 1) : Int) * 15

/-- Embedding of `Evaluator::Impl::evaluate` (sum of the terms, negated for
black to move). -/
def evaluate (pos : Position) : Int :=
  let score := getMaterialBalance pos + getPieceSquareScore pos +
    evaluatePawnStructure pos + evaluateMobility pos +
    (evaluateKingSafety pos 0 - evaluateKingSafety pos 1) +
    evaluateCenterControl pos
  if pos.sideToMove = 0 then score else -score

/-- The `std::numeric_limits<int>::max()` bound used by the search. -/
def INT_MAX : Int := 2147483647

/-- Capture test of the search's move-ordering comparator: destination
occupied. Note it does not look at en passant. -/
def searchCaptureB (pos : Position) (m : Move) : Bool := getPieceAt pos m.toSq != 0

/-- Move ordering of `ChessAnalyzer::Impl::search`. The source calls
`std::sort` with the comparator `aCapture > bCapture`; `std::sort`
guarantees exactly that every move the comparator ranks first (a
destination-occupied capture) ends up before every other move, and fixes
nothing else. We model the sort by the canonical such output: the
captures in generator order, then the remaining moves in generator
order. -/
def searchOrderedMoves (pos : Position) (moves : List Move) : List Move :=
  moves.filter (searchCaptureB pos) ++ moves.filter (fun m => !searchCaptureB pos m)

/-- Alpha-beta loop body of `ChessAnalyzer::Impl::search`, with the
recursive call for the child depth passed in as `rec`. -/
def searchLoopAux (rec : Position → Int → Int → Move × Int) (pos : Position) :
    List Move → Int → Int → Move × Int → Move × Int
  | [], _, _, best => best
  | mv :: rest, alpha, beta, best =>
    let res := rec (makeMove pos mv) (-beta) (-alpha)
    let score := -res.2
    let best2 := if score > best.2 then (mv, score) else best
    let alpha2 := max alpha score
    if alpha2 ≥ beta then best2 else searchLoopAux rec pos rest alpha2 beta best2

/-- Embedding of `ChessAnalyzer::Impl::search`: evaluate at depth 0; mate
or stalemate score when no legal move exists; otherwise the alpha-beta
loop over the capture-first ordering, starting from
`{moves[0], -INT_MAX}`. -/
def search : Nat → Position → Int → Int → Move × Int
  | 0, pos, _, _ => (NULL_MOVE, evaluate pos)
  | d + 1, pos, alpha, beta =>
    let moves := generateLegalMoves pos
    if moves = [] then
      (NULL_MOVE, if isInCheck pos then -20000 + ((d : Int) + 1) else 0)
    else
      searchLoopAux (fun p a b => search d p a b) pos (searchOrderedMoves pos moves)
        alpha beta (moves.headD NULL_MOVE, -INT_MAX)

/-- Embedding of `ChessAnalyzer::findBestMove`. -/
def findBestMove (pos : Position) (depth : Nat) : Move :=
  (search depth pos (-INT_MAX) INT_MAX).1

/-- Helper of `removeCommentsAndVariations`: walk the text with the brace
and parenthesis nesting counters (C++ `int`s). -/
def rcvAux : List Char → Int → Int → List Char
  | [], _, _ => []
  | c :: rest, bl, pl =>
    if c = '\x7b' then rcvAux rest (bl + 1) pl
    else if c = '\x7d' then rcvAux rest (bl - 1) pl
    else if c = '(' then rcvAux rest bl (pl + 1)
    else if c = ')' then rcvAux rest bl (pl - 1)
    else if bl = 0 ∧ pl = 0 then c :: rcvAux rest bl pl
    else rcvAux rest bl pl

/-- Embedding of `PGNParser::Impl::removeCommentsAndVariations`. -/
def removeCommentsAndVariations (text : List Char) : List Char := rcvAux text 0 0

/-- Dot split of one whitespace token in `PGNParser::Impl::tokenize`
(`"1.e4"` becomes `"1."` and `"e4"`). -/
def splitTok (t : List Char) : List (List Char) :=
  match t.findIdx? (fun c => c = '.') with
  | some i => if i + 1 < t.length then [t.take (i + 1), t.drop (i + 1)] else [t]
  | none => [t]

/-- Embedding of `PGNParser::Impl::tokenize`. -/
def tokenize (text : List Char) : List (List Char) := (splitWS text).flatMap splitTok

/-- Piece letter of a SAN token (`switch (str[0])`; `none` is the
`default: return NULL_MOVE` case). -/
def sanPieceType (c : Char) : Option Nat :=
  if c = 'N' then some 1 else if c = 'B' then some 2 else if c = 'R' then some 3
  else if c = 'Q' then some 4 else if c = 'K' then some 5 else none

/-- Promotion letter of a SAN token (lower-cased). -/
def sanPromotion (c : Char) : Option Nat :=
  if c = 'q' then some 0 else if c = 'r' then some 1 else if c = 'b' then some 2
  else if c = 'n' then some 3 else none

/-- Candidate filter of `parseAlgebraicMoveImpl` over the legal moves
(each `continue` of the loop is one conjunct). -/
def sanCandidateB (pos : Position) (tsq pieceType : Nat) (isCapture isProm : Bool)
    (promotion : Nat) (m : Move) : Bool :=
  m.toSq == tsq &&
    typeOf (getPieceAt pos m.fromSq) == pieceType &&
    !(isCapture && getPieceAt pos tsq == 0 && !m.isEnPassant) &&
    !(!isCapture && (getPieceAt pos tsq != 0 || m.isEnPassant)) &&
    !(isProm && !m.isPromotion) &&
    !(!isProm && m.isPromotion) &&
    !(isProm && m.promoBits != promotion)

/-- Disambiguation test of `parseAlgebraicMoveImpl`: every remaining
character that is a file or rank letter must match the origin square. -/
def sanDisambigB (str : List Char) (m : Move) : Bool :=
  str.all (fun c =>
    if 'a' ≤ c ∧ c ≤ 'h' then fileOf m.fromSq == c.toNat - 97
    else if '1' ≤ c ∧ c ≤ '8' then rankOf m.fromSq == c.toNat - 49
    else true)

/-- Embedding of `PGNParser::Impl::parseAlgebraicMoveImpl`. -/
def parseAlgebraicMove (pos : Position) (moveStr : List Char) : Move :=
  if moveStr = [] then NULL_MOVE
  else if moveStr = ['O', '-', 'O'] ∨ moveStr = ['0', '-', '0'] then
    if pos.sideToMove = 0 then Move.make 4 6 3 0 else Move.make 60 62 3 0
  else if moveStr = ['O', '-', 'O', '-', 'O'] ∨ moveStr = ['0', '-', '0', '-', '0'] then
    if pos.sideToMove = 0 then Move.make 4 2 3 0 else Move.make 60 58 3 0
  else
    let s0 :=
      if moveStr.getLast? = some '+' ∨ moveStr.getLast? = some '#' then moveStr.dropLast
      else moveStr
    let promCheck : Bool := s0.length ≥ 2 ∧ s0.getD (s0.length - 2) ' ' = '='
    match (if promCheck then sanPromotion ((s0.getLastD ' ').toLower) else some 0) with
    | none => NULL_MOVE
    | some promotion =>
      let s1 := if promCheck then s0.take (s0.length - 2) else s0
      let capIdx := s1.findIdx? (fun c => c = 'x')
      let isCapture := capIdx.isSome
      let s2 :=
        match capIdx with
        | some i => s1.take i ++ s1.drop (i + 1)
        | none => s1
      if s2.length < 2 then NULL_MOVE
      else
        match stringToSquare (s2.drop (s2.length - 2)) with
        | none => NULL_MOVE
        | some tsq =>
          let s3 := s2.take (s2.length - 2)
          let headUpper : Bool := s3 ≠ [] ∧ (s3.headD ' ').isUpper
          match (if headUpper then sanPieceType (s3.headD ' ') else some 0) with
          | none => NULL_MOVE
          | some pieceType =>
            let s4 := if headUpper then s3.tail else s3
            let candidates :=
              (generateLegalMoves pos).filter
                (sanCandidateB pos tsq pieceType isCapture promCheck promotion)
            let final :=
              if candidates.length > 1 ∧ s4 ≠ [] then
                candidates.filter (sanDisambigB s4)
              else candidates
            if final.length = 1 then final.headD NULL_MOVE else NULL_MOVE

/-- Skip test of the `parseMoveText` token loop: first character is a digit
(`token[0]` of an empty `std::string` reads the terminating null), or the
token is one of the result strings. -/
def skipTokB (t : List Char) : Bool :=
  (t.headD (Char.ofNat 0)).isDigit || t = ['1', '-', '0'] || t = ['0', '-', '1'] ||
    t = ['1', '/', '2', '-', '1', '/', '2'] || t = ['*']

/-- The `lastError` message written on a failed move token. -/
def invalidMsg (t : List Char) : List Char := ("Invalid move: ".toList) ++ t

/-- Token loop of `PGNParser::Impl::parseMoveText`: skip move numbers and
results, resolve the rest as SAN against the running position, stop on
the first failure recording `lastError`. Returns the accumulated moves
and the `lastError` content (`none` if untouched). -/
def interpTokens (pos : Position) : List (List Char) → List Move × Option (List Char)
  | [] => ([], none)
  | t :: rest =>
    if skipTokB t then interpTokens pos rest
    else
      let mv := parseAlgebraicMove pos t
      if mv ≠ NULL_MOVE then
        let r := interpTokens (makeMove pos mv) rest
        (mv :: r.1, r.2)
      else ([], some (invalidMsg t))

/-- Embedding of `PGNParser::Impl::parseMoveText` (sanitize, tokenize,
interpret from the initial FEN or the starting position). -/
def parseMoveText (moveText initialFEN : List Char) : List Move × Option (List Char) :=
  let pos := initializeFromFEN (if initialFEN = [] then STARTING_FEN else initialFEN)
  interpTokens pos (tokenize (removeCommentsAndVariations moveText))

/-- Modelled from the spec (§4.7 Interpret, as amended by claim C8): the
interpretation of the tokens that survive the skip rule — resolve each as
SAN against the running position and apply it; on the first failure
record the error and stop, keeping the moves accumulated so far. -/
def interpretActiveTokens (pos : Position) : List (List Char) → List Move × Option (List Char)
  | [] => ([], none)
  | t :: rest =>
    let mv := parseAlgebraicMove pos t
    if mv ≠ NULL_MOVE then
      let r := interpretActiveTokens (makeMove pos mv) rest
      (mv :: r.1, r.2)
    else ([], some (invalidMsg t))

/-- Modelled from the spec (§4.5 Material: "piece counts × values"): total
material of both colors over the listed piece types. With
`ts = [1, 2, 3, 4]` this is the claim C6 notion "total non-pawn, non-king
material on the board"; with `ts = [3, 4]` it is the rook-and-queen total
the code actually uses. -/
def specMaterialCount (pos : Position) (ts : List Nat) : Int :=
  ts.foldl
    (fun acc t =>
      acc + ((popcount (getPieceBitboard pos t 0) : Int) +
        (popcount (getPieceBitboard pos t 1) : Int)) * pieceValue t)
    0

/-- The standard starting position (default `Position` constructor). -/
def startPos : Position := initializeFromFEN STARTING_FEN

/-- Position for claim C3's counterexample: white may (per the code) castle
kingside although e1 is attacked by the black rook — the king itself
stands on h1, so `isInCheck` passes. From FEN, which the program accepts
without validation. -/
def castleCexPos : Position := initializeFromFEN ("4r3/8/8/8/8/8/7R/7K w K - 0 1".toList)

/-- Position for claim C4's failing input: black to move, black still has
the queenside castling right, black king on e8. -/
def kingMoveCexPos : Position := initializeFromFEN ("r3k3/8/8/8/8/8/8/4K3 b q - 0 1".toList)

/-- The black king move e8d8 used as claim C4's failing input. -/
def kingMoveCexMove : Move := Move.makeN 60 59

/-- Position for claim C6's counterexample: two knights, two bishops and a
queen per side (minor material 2600 plus queens 1800), no rooks. -/
def endgameCexPos : Position :=
  initializeFromFEN ("1nbqkbn1/8/8/8/8/8/8/1NBQKBN1 w - - 0 1".toList)

/-- Position for claim C7's counterexample: white pawn e5, black pawn d5
just double-pushed, en passant on d6 available. -/
def epOrderCexPos : Position := initializeFromFEN ("4k3/8/8/3pP3/8/8/8/4K3 w - d6 0 1".toList)

/-- The en-passant capture e5xd6 of `epOrderCexPos`. -/
def epOrderCexEP : Move := Move.make 36 43 2 0

/-- The quiet pawn push e5e6 of `epOrderCexPos`. -/
def epOrderCexPush : Move := Move.makeN 36 44

/-- FEN for claim C8's counterexample: white castling kingside is legal. -/
def zeroCastleFEN : List Char := ("4k3/8/8/8/8/8/8/4K2R w K - 0 1".toList)

/-- Position of `zeroCastleFEN`. -/
def zeroCastlePos : Position := initializeFromFEN zeroCastleFEN

/-- The `occupied` value computed at the top of `generateAllMoves`
(`ourPieces | theirPieces`), named so the castling characterization can
refer to it. -/
def genOccupied (pos : Position) : Nat :=
  getColorBitboard pos pos.sideToMove |||
    getColorBitboard pos (if pos.sideToMove = 0 then 1 else 0)

/-- Modelled from the spec (§4.4 Legal filter, §8 invariant 6): "for each
pseudo-legal move, apply `make_move`, then test whether the mover's king
is attacked in the resulting position; discard if so". This is the
specification's notion of a legal move, which `generateLegalMoves` was
meant to implement — the engine instead calls `isInCheck()` on the
successor position, whose side to move has already flipped, and so tests
the opponent's king. -/
def specLegalMoves (pos : Position) : List Move :=
  (generatePseudoLegalMoves pos).filter
    (fun m =>
      let newPos := makeMove pos m
      !isSquareAttacked newPos (lsbE (getPieceBitboard newPos 5 pos.sideToMove))
        (pos.sideToMove ^^^ 1))

/-- Position for claim C2's failing input: white is checkmated — king a1,
black rook a8 (pinning the a-file), black king c2 (covering b1 and b2). -/
def mateCexPos : Position := initializeFromFEN ("r7/8/8/8/8/8/2k5/K7 w - - 0 1".toList)

/-- C1: the FEN round trip `from_fen(to_fen(p)) == p` fails already at the
starting position (which is reachable): `typeOf` computes `(p - 1) % 6`
although black piece codes start at 9, so `toFEN` emits every black piece
with a wrong letter — the starting position is printed as
`krqpnqrk/bbbbbbbb/8/8/8/8/PPPPPPPP/RNBQKBNR w KQkq - 0 1` and does not
parse back to itself. The repository's own test
`DefaultConstructorCreatesStartingPosition` expects `toFEN` to return the
standard starting FEN, so the code contradicts its tests. -/
theorem c1_fen_roundtrip_fails_at_startpos :
    toFEN startPos = ("krqpnqrk/bbbbbbbb/8/8/8/8/PPPPPPPP/RNBQKBNR w KQkq - 0 1".toList) ∧
      posEq (initializeFromFEN (toFEN startPos)) startPos = false := by
  constructor
  · decide
  · decide

/-- C4: failing input for the castling-rights update of `makeMove`. The
generator produces the black king move e8d8, but the resulting position
still carries black's queenside right (value 8): `typeOf` misclassifies
the black king (code 14) as a knight (`(14 - 1) % 6 = 1`), so the
king-moved branch that should clear both black rights never runs —
contradicting spec §4.2 step 4 and the claim. -/
theorem c4_king_move_keeps_rights :
    kingMoveCexMove ∈ generatePseudoLegalMoves kingMoveCexPos ∧
      getPieceAt kingMoveCexPos 60 = 14 ∧
      typeOf (getPieceAt kingMoveCexPos 60) = 1 ∧
      (makeMove kingMoveCexPos kingMoveCexMove).castlingRights = 8 := by
  refine ⟨by decide, by decide, by decide, by decide⟩

/-- C2: failing input for the null-return contract of `findBestMove`. At
the checkmate position `mateCexPos` there is no legal move in the spec's
sense (§4.4: after the move the mover's king must not be attacked), so
the claim requires the null move at every depth ≥ 1. But the legality
filter of `generateLegalMoves` calls `isInCheck()` on the successor
position, whose side to move has already flipped — it tests the
*opponent's* king, keeping the self-check move a1a2 and dropping the
checking moves a1b1 and a1b2 — and `findBestMove` returns a1a2 instead
of the null move, so callers cannot detect the checkmate. -/
theorem c2_checkmate_nonnull_best_move :
    specLegalMoves mateCexPos = [] ∧
      generateLegalMoves mateCexPos = [Move.makeN 0 8] ∧
      findBestMove mateCexPos 1 = Move.makeN 0 8 ∧
      findBestMove mateCexPos 1 ≠ NULL_MOVE := by
  refine ⟨by decide, by decide, ?_, ?_⟩
  · decide
  · decide

/-- C3 counterexample: in `castleCexPos` the generator emits the white
kingside castling move although the origin square e1 is attacked by the
black rook — the code only tests `isInCheck` (the king's actual square,
here h1) plus f1 and g1, never the move's origin square. The claim's
"squares the king crosses (including origin …) are not attacked" is
therefore false as stated over all positions. -/
theorem c3_castle_with_attacked_origin :
    Move.make 4 6 3 0 ∈ generatePseudoLegalMoves castleCexPos ∧
      isSquareAttacked castleCexPos 4 1 = true := by
  refine ⟨by decide, by decide⟩

/-- C6 counterexample: `endgameCexPos` has non-pawn, non-king material
4400 (≥ 2000) yet `isEndgame` reports true, because the code sums only
queen and rook material (1800 here). -/
theorem c6_minor_material_ignored :
    isEndgame endgameCexPos = true ∧
      specMaterialCount endgameCexPos [1, 2, 3, 4] = 4400 ∧
      ¬ specMaterialCount endgameCexPos [1, 2, 3, 4] < 2000 := by
  refine ⟨by decide, by decide, by decide⟩

/-- C7 counterexample: in `epOrderCexPos` the move list ordered by the
search comparator keeps the quiet push e5e6 at index 0 and the en-passant
capture e5xd6 at index 1 — a capture in the claim's sense (destination
occupied or en passant) that does not precede a non-capture, because the
comparator tests only destination occupancy. -/
theorem c7_ep_not_ordered_first :
    searchOrderedMoves epOrderCexPos (generateLegalMoves epOrderCexPos) =
        epOrderCexPush :: epOrderCexEP ::
          (searchOrderedMoves epOrderCexPos (generateLegalMoves epOrderCexPos)).drop 2 ∧
      isCaptureMoveB epOrderCexPos epOrderCexEP = true ∧
      isCaptureMoveB epOrderCexPos epOrderCexPush = false := by
  refine ⟨by decide, by decide, by decide⟩

/-- Membership in the square list of a bitboard. -/
theorem mem_bitboardSquares {b s : Nat} :
    s ∈ bitboardSquares b ↔ s < 64 ∧ b.testBit s = true := by
  simp [bitboardSquares, List.mem_filter, List.mem_range]

/-- C10: positions that differ only in halfmove clock, fullmove number, or
hash are equal under `operator==` — the comparison reads only the piece
bitboards, the side to move, the castling rights and the en-passant
square. -/
theorem c10_posEq_ignores_clocks_and_hash (p : Position) (hm fm : Int) (zh : Nat) :
    posEq { p with halfmoveClock := hm, fullmoveNumber := fm, zobristHash := zh } p = true := by
  simp [posEq, pbbEq]

/-- The quiet test is the Boolean negation of the capture test. -/
theorem isQuietMoveB_eq_not_capture (pos : Position) (m : Move) :
    isQuietMoveB pos m = !isCaptureMoveB pos m := by
  rw [isQuietMoveB, isCaptureMoveB, Bool.not_or, bne, Bool.not_not]

/-- C9: `generateCaptures` and `generateQuietMoves` partition the
pseudo-legal list — both are sublists (hence in generator order), their
lengths add up, a pseudo-legal move is a capture iff its destination is
occupied or it is en passant, is quiet iff neither, and lies in exactly
one of the two lists. -/
theorem c9_captures_quiet_partition (pos : Position) :
    (generateCaptures pos).Sublist (generatePseudoLegalMoves pos) ∧
      (generateQuietMoves pos).Sublist (generatePseudoLegalMoves pos) ∧
      (generateCaptures pos).length + (generateQuietMoves pos).length
        = (generatePseudoLegalMoves pos).length ∧
      ∀ m ∈ generatePseudoLegalMoves pos,
        (m ∈ generateCaptures pos ↔ (getPieceAt pos m.toSq ≠ 0 ∨ m.isEnPassant = true)) ∧
          (m ∈ generateQuietMoves pos ↔ (getPieceAt pos m.toSq = 0 ∧ m.isEnPassant = false)) ∧
          ((m ∈ generateCaptures pos) ↔ ¬ m ∈ generateQuietMoves pos) := by
  refine ⟨List.filter_sublist _, List.filter_sublist _, ?_, ?_⟩
  · rw [generateCaptures, generateQuietMoves, ← List.countP_eq_length_filter,
      ← List.countP_eq_length_filter]
    have hq : List.countP (isQuietMoveB pos) (generatePseudoLegalMoves pos)
        = List.countP (fun a => decide (¬ isCaptureMoveB pos a = true))
            (generatePseudoLegalMoves pos) := by
      apply List.countP_congr
      intro m _
      rw [isQuietMoveB_eq_not_capture]
      cases isCaptureMoveB pos m <;> simp
    rw [hq]
    exact (List.length_eq_countP_add_countP (isCaptureMoveB pos) _).symm
  · intro m hm
    have hcap : m ∈ generateCaptures pos ↔ isCaptureMoveB pos m = true := by
      simp [generateCaptures, List.mem_filter, hm]
    have hqui : m ∈ generateQuietMoves pos ↔ isQuietMoveB pos m = true := by
      simp [generateQuietMoves, List.mem_filter, hm]
    have hcap2 : (isCaptureMoveB pos m = true) ↔
        (getPieceAt pos m.toSq ≠ 0 ∨ m.isEnPassant = true) := by
      simp [isCaptureMoveB]
    have hqui2 : (isQuietMoveB pos m = true) ↔
        (getPieceAt pos m.toSq = 0 ∧ m.isEnPassant = false) := by
      simp [isQuietMoveB]
    refine ⟨hcap.trans hcap2, hqui.trans hqui2, ?_⟩
    rw [hcap, hqui, isQuietMoveB_eq_not_capture]
    cases isCaptureMoveB pos m <;> simp

/-- Witness for C9 at the starting position and the pawn move e2e4. -/
theorem c9_witness :
    (Move.makeN 12 28 ∈ generateCaptures startPos ↔
        (getPieceAt startPos (Move.makeN 12 28).toSq ≠ 0 ∨
          (Move.makeN 12 28).isEnPassant = true)) ∧
      (Move.makeN 12 28 ∈ generateQuietMoves startPos ↔
        (getPieceAt startPos (Move.makeN 12 28).toSq = 0 ∧
          (Move.makeN 12 28).isEnPassant = false)) ∧
      ((Move.makeN 12 28 ∈ generateCaptures startPos) ↔
        ¬ Move.makeN 12 28 ∈ generateQuietMoves startPos) :=
  (c9_captures_quiet_partition startPos).2.2.2 (Move.makeN 12 28) (by decide)

/-- C6 amended: the endgame switch is on iff the total rook-and-queen
material of both sides (piece counts × values, the types the code
actually sums) is below 2000. -/
theorem c6_endgame_iff_rook_queen_material (pos : Position) :
    isEndgame pos = true ↔ specMaterialCount pos [3, 4] < 2000 := by
  rw [isEndgame, specMaterialCount]
  simp only [List.foldl, pieceValue]
  norm_num
  omega

/-- The square codec round-trips every on-board square. -/
theorem stringToSquare_squareToString : ∀ sq < 64, stringToSquare (squareToString sq) = some sq := by
  decide

/-- C5 counterexample: the normal (non-castling) move e1g1 — for example a
rook sliding from e1 to g1 — is neither en passant nor castling, but its
UCI round trip yields the castling-typed move: `fromUCI` classifies any
two-square step from e1/e8 as castling. -/
theorem c5_e1g1_roundtrip_fails :
    (Move.makeN 4 6).isEnPassant = false ∧ (Move.makeN 4 6).isCastling = false ∧
      Move.fromUCI (Move.toUCI (Move.makeN 4 6)) = Move.make 4 6 3 0 ∧
      Move.fromUCI (Move.toUCI (Move.makeN 4 6)) ≠ Move.makeN 4 6 := by
  refine ⟨by decide, by decide, by decide, by decide⟩

/-- Evaluation of `fromUCI` on a four-character string whose halves parse
as squares. -/
theorem fromUCI_four {a b c d : Char} {f t : Nat} (h1 : stringToSquare [a, b] = some f)
    (h2 : stringToSquare [c, d] = some t) :
    Move.fromUCI [a, b, c, d] =
      (if absDiff t f = 2 ∧ (f = 4 ∨ f = 60) then Move.make f t 3 0 else Move.makeN f t) := by
  rw [Move.fromUCI, if_neg (by simp)]
  rw [show [a, b, c, d].take 2 = [a, b] from rfl,
    show ([a, b, c, d].drop 2).take 2 = [c, d] from rfl, h1, h2]
  rfl

/-- Evaluation of `fromUCI` on a five-character string whose first halves
parse as squares. -/
theorem fromUCI_five {a b c d e : Char} {f t : Nat} (h1 : stringToSquare [a, b] = some f)
    (h2 : stringToSquare [c, d] = some t) :
    Move.fromUCI [a, b, c, d, e] =
      (match e.toLower with
       | 'q' => Move.make f t 1 0
       | 'r' => Move.make f t 1 1
       | 'b' => Move.make f t 1 2
       | 'n' => Move.make f t 1 3
       | _ => NULL_MOVE) := by
  rw [Move.fromUCI, if_neg (by simp)]
  rw [show [a, b, c, d, e].take 2 = [a, b] from rfl,
    show ([a, b, c, d, e].drop 2).take 2 = [c, d] from rfl, h1, h2]
  rfl

/-- UCI round trip of a normal move away from the castling-shaped
exceptions. -/
theorem c5_roundtrip_normal (f t : Nat) (hf : f < 64) (ht : t < 64)
    (hx : ¬((f = 4 ∨ f = 60) ∧ absDiff t f = 2)) :
    Move.fromUCI (Move.toUCI ⟨f, t, 0, 0⟩) = ⟨f, t, 0, 0⟩ := by
  by_cases hnull : (⟨f, t, 0, 0⟩ : Move) = NULL_MOVE
  · rw [hnull]
    decide
  · obtain ⟨a, b, hab⟩ : ∃ x y, squareToString f = [x, y] := ⟨_, _, rfl⟩
    obtain ⟨c, d, hcd⟩ : ∃ x y, squareToString t = [x, y] := ⟨_, _, rfl⟩
    have h1 : stringToSquare [a, b] = some f := hab ▸ stringToSquare_squareToString f hf
    have h2 : stringToSquare [c, d] = some t := hcd ▸ stringToSquare_squareToString t ht
    have htu : Move.toUCI ⟨f, t, 0, 0⟩ = [a, b, c, d] := by
      rw [Move.toUCI, show Move.isNull ⟨f, t, 0, 0⟩ = false from by
        simp [Move.isNull, hnull]]
      simp [Move.isPromotion, hab, hcd]
    rw [htu, fromUCI_four h1 h2, if_neg (by tauto)]
    simp [Move.makeN, Move.make, Nat.mod_eq_of_lt hf, Nat.mod_eq_of_lt ht]

/-- UCI round trip of a promotion move. -/
theorem c5_roundtrip_promotion (f t pr : Nat) (hf : f < 64) (ht : t < 64) (hpr : pr < 4) :
    Move.fromUCI (Move.toUCI ⟨f, t, pr, 1⟩) = ⟨f, t, pr, 1⟩ := by
  obtain ⟨a, b, hab⟩ : ∃ x y, squareToString f = [x, y] := ⟨_, _, rfl⟩
  obtain ⟨c, d, hcd⟩ : ∃ x y, squareToString t = [x, y] := ⟨_, _, rfl⟩
  have h1 : stringToSquare [a, b] = some f := hab ▸ stringToSquare_squareToString f hf
  have h2 : stringToSquare [c, d] = some t := hcd ▸ stringToSquare_squareToString t ht
  have htu : Move.toUCI ⟨f, t, pr, 1⟩ = [a, b, c, d, promoChar pr] := by
    rw [Move.toUCI, show Move.isNull ⟨f, t, pr, 1⟩ = false from by
      simp [Move.isNull, NULL_MOVE]]
    simp [Move.isPromotion, hab, hcd]
  rw [htu, fromUCI_five h1 h2]
  interval_cases pr <;>
    simp [promoChar, Move.make, Nat.mod_eq_of_lt hf, Nat.mod_eq_of_lt ht]

/-- C5 amended: `from_uci(to_uci(m)) = m` for every well-formed 16-bit move
`m` that is neither en passant nor castling, has zero promotion bits
unless it is a promotion, and is not a normal move doing a two-square
step from e1 or e8 (those come back castling-typed, see the
counterexample). -/
theorem c5_uci_roundtrip (m : Move) (hf : m.fromSq < 64) (ht : m.toSq < 64)
    (hpr : m.promoBits < 4) (hty : m.typeBits < 4)
    (hep : m.isEnPassant = false) (hc : m.isCastling = false)
    (hpz : m.isPromotion = true ∨ m.promoBits = 0)
    (hx : ¬(m.typeBits = 0 ∧ (m.fromSq = 4 ∨ m.fromSq = 60) ∧ absDiff m.toSq m.fromSq = 2)) :
    Move.fromUCI (Move.toUCI m) = m := by
  obtain ⟨f, t, pr, ty⟩ := m
  simp only [Move.isEnPassant, Move.isCastling, Move.isPromotion,
    decide_eq_false_iff_not, decide_eq_true_eq] at hep hc hpz
  simp only at hf ht hpr hty hx
  have hty2 : ty = 0 ∨ ty = 1 := by omega
  rcases hty2 with rfl | rfl
  · have hpz0 : pr = 0 := by
      rcases hpz with h | h
      · omega
      · exact h
    subst hpz0
    exact c5_roundtrip_normal f t hf ht (by tauto)
  · exact c5_roundtrip_promotion f t pr hf ht hpr

/-- Witness for C5 at the pawn move e2e4. -/
theorem c5_witness :
    ((Move.makeN 12 28).isEnPassant = false ∧ (Move.makeN 12 28).isCastling = false) ∧
      Move.fromUCI (Move.toUCI (Move.makeN 12 28)) = Move.makeN 12 28 :=
  ⟨⟨by decide, by decide⟩,
    c5_uci_roundtrip (Move.makeN 12 28) (by decide) (by decide) (by decide) (by decide)
      (by decide) (by decide) (by decide) (by decide)⟩

/-- C7 amended: the search-ordered move list is a permutation of the legal
list in which every destination-occupied capture (the comparator's only
criterion — en passant counts as a non-capture here) precedes every other
move, and each of the two groups keeps its generator order (the capture
group and the non-capture group are sublists of the result in their
original order). -/
theorem c7_capture_first_ordering (pos : Position) (moves : List Move) :
    (searchOrderedMoves pos moves).Perm moves ∧
      (searchOrderedMoves pos moves).Pairwise
        (fun a b => searchCaptureB pos b = true → searchCaptureB pos a = true) ∧
      (moves.filter (searchCaptureB pos)).Sublist (searchOrderedMoves pos moves) ∧
      (moves.filter (fun m => !searchCaptureB pos m)).Sublist (searchOrderedMoves pos moves) := by
  refine ⟨List.filter_append_perm _ _, ?_, List.sublist_append_left _ _,
    List.sublist_append_right _ _⟩
  rw [searchOrderedMoves, List.pairwise_append]
  refine ⟨?_, ?_, ?_⟩
  · apply List.pairwise_of_forall_mem_list
    intro a ha b _ _
    exact (List.mem_filter.mp ha).2
  · apply List.pairwise_of_forall_mem_list
    intro a _ b hb hcb
    have := (List.mem_filter.mp hb).2
    rw [hcb] at this
    simp at this
  · intro a ha b _ _
    exact (List.mem_filter.mp ha).2

/-- C8 amended: the token loop of `parseMoveText` behaves exactly as the
spec's interpretation step applied to the tokens surviving the skip test
"first character is a digit, or the token is a result token or `*`" —
every surviving token is resolved as SAN and applied, and the first
failure records `Invalid move: <token>` and stops, keeping the moves
accumulated so far. -/
theorem c8_interp_skips_exactly (pos : Position) (tokens : List (List Char)) :
    interpTokens pos tokens =
      interpretActiveTokens pos (tokens.filter (fun t => !skipTokB t)) := by
  induction tokens generalizing pos with
  | nil => rfl
  | cons t rest ih =>
    rw [List.filter_cons]
    by_cases h : skipTokB t
    · simp only [h, Bool.not_true, Bool.false_eq_true, if_false]
      rw [interpTokens]
      simp only [h, if_true]
      exact ih pos
    · simp only [h, Bool.not_false, if_true]
      rw [interpTokens, interpretActiveTokens]
      simp only [h, Bool.false_eq_true, if_false]
      by_cases hm : parseAlgebraicMove pos t ≠ NULL_MOVE
      · simp only [hm, if_true, ih]
      · simp only [hm, if_false]

/-- C8 counterexample: the token `0-0` is neither a pure move number (it
does not end with a dot) nor one of the result tokens, and it resolves to
white's legal kingside castling move — yet `parseMoveText` skips it (the
skip test is "first character is a digit") and applies nothing. -/
theorem c8_zero_castling_token_skipped :
    parseMoveText ("0-0".toList) zeroCastleFEN = ([], none) ∧
      parseAlgebraicMove zeroCastlePos ("0-0".toList) = Move.make 4 6 3 0 ∧
      Move.make 4 6 3 0 ∈ generateLegalMoves zeroCastlePos := by
  refine ⟨by decide, by decide, by decide⟩

/-- Membership in a conditional singleton list. -/
theorem mem_ite_singleton {α : Type} {c : Prop} [Decidable c] {a x : α} :
    (a ∈ if c then [x] else []) ↔ c ∧ a = x := by
  split <;> simp_all

/-- Fields of the four promotion moves of one pawn target. -/
theorem promotionMoves_fields {f t : Nat} {m : Move} (h : m ∈ promotionMoves f t) :
    m.fromSq = f % 64 ∧ m.typeBits = 1 := by
  simp only [promotionMoves, List.mem_cons, List.not_mem_nil, or_false] at h
  rcases h with rfl | rfl | rfl | rfl <;> exact ⟨rfl, rfl⟩

/-- Move type of the two-argument constructor. -/
theorem typeBits_makeN (f t : Nat) : (Move.makeN f t).typeBits = 0 := rfl

/-- Move type of the four-argument constructor. -/
theorem typeBits_make (f t ty pr : Nat) : (Move.make f t ty pr).typeBits = ty % 4 := rfl

/-- Fields of the moves emitted by the push part of the pawn generator. -/
theorem pawnPushMoves_fields {us occ f : Nat} {m : Move} (h : m ∈ pawnPushMoves us occ f) :
    m.fromSq = f % 64 ∧ m.typeBits ≠ 3 := by
  unfold pawnPushMoves at h
  dsimp only at h
  split_ifs at h
  all_goals
    first
      | exact absurd h (List.not_mem_nil m)
      | (obtain ⟨h1, h2⟩ := promotionMoves_fields h
         exact ⟨h1, by omega⟩)
      | (simp only [List.mem_cons, List.not_mem_nil, or_false] at h
         rcases h with rfl | rfl <;>
           exact ⟨rfl, by rw [typeBits_makeN]; decide⟩)

/-- Fields of the moves emitted by the capture part of the pawn generator. -/
theorem pawnCaptureMoves_fields {us tp f : Nat} {m : Move} (h : m ∈ pawnCaptureMoves us tp f) :
    m.fromSq = f % 64 ∧ m.typeBits ≠ 3 := by
  unfold pawnCaptureMoves at h
  rw [List.mem_flatMap] at h
  obtain ⟨c, _, h⟩ := h
  split at h
  · obtain ⟨h1, h2⟩ := promotionMoves_fields h
    exact ⟨h1, by omega⟩
  · rw [List.mem_singleton] at h
    subst h
    exact ⟨rfl, by rw [typeBits_makeN]; decide⟩

/-- Fields of the moves emitted by the en-passant part of the pawn
generator. -/
theorem pawnEPMoves_fields {pos : Position} {us f : Nat} {m : Move}
    (h : m ∈ pawnEPMoves pos us f) : m.fromSq = f % 64 ∧ m.typeBits ≠ 3 := by
  unfold pawnEPMoves at h
  repeat' (first | split at h | split_ifs at h)
  all_goals
    first
      | exact absurd h (List.not_mem_nil m)
      | (rw [List.mem_singleton] at h
         subst h
         exact ⟨rfl, by rw [typeBits_make]; decide⟩)

/-- Every move emitted by the pawn generator is typed normal, promotion or
en passant — never castling. -/
theorem pawnMoves_not_castling {pos : Position} {us tp occ : Nat} {m : Move}
    (h : m ∈ generatePawnMoves pos us tp occ) : m.typeBits ≠ 3 := by
  simp only [generatePawnMoves, List.mem_flatMap] at h
  obtain ⟨f, _, hm⟩ := h
  rw [List.mem_append, List.mem_append] at hm
  rcases hm with (hm | hm) | hm
  · exact (pawnPushMoves_fields hm).2
  · exact (pawnCaptureMoves_fields hm).2
  · exact (pawnEPMoves_fields hm).2

/-- Shape of the moves emitted by the `generatePieceMoves` template. -/
theorem pieceMovesBy_shape {atk : Nat → Nat → Nat} {pieces our occ : Nat} {m : Move}
    (h : m ∈ generatePieceMovesBy atk pieces our occ) :
    ∃ f t, f < 64 ∧ t < 64 ∧ pieces.testBit f = true ∧
      (atk f occ &&& compl64 our).testBit t = true ∧ m = Move.makeN f t := by
  simp only [generatePieceMovesBy, List.mem_flatMap, List.mem_map] at h
  obtain ⟨f, hf, t, ht, rfl⟩ := h
  obtain ⟨hf64, hfbit⟩ := mem_bitboardSquares.mp hf
  obtain ⟨ht64, htbit⟩ := mem_bitboardSquares.mp ht
  exact ⟨f, t, hf64, ht64, hfbit, htbit, rfl⟩

/-- Shape of the moves emitted by `generateKingMoves`. -/
theorem kingMoves_shape {pos : Position} {us our : Nat} {m : Move}
    (h : m ∈ generateKingMoves pos us our) :
    ∃ t, t < 64 ∧
      (kingAttacksFn (lsbE (getPieceBitboard pos 5 us)) &&& compl64 our).testBit t = true ∧
      m = Move.makeN (lsbE (getPieceBitboard pos 5 us)) t := by
  simp only [generateKingMoves, List.mem_map] at h
  obtain ⟨t, ht, rfl⟩ := h
  obtain ⟨ht64, htbit⟩ := mem_bitboardSquares.mp ht
  exact ⟨t, ht64, htbit, rfl⟩

/-- Every move emitted by the castling generator is castling-typed. -/
theorem castlingMoves_typeBits {pos : Position} {us occ : Nat} {m : Move}
    (h : m ∈ generateCastlingMoves pos us occ) : m.typeBits = 3 := by
  rw [generateCastlingMoves] at h
  split at h
  · simp at h
  · split at h <;>
      (rw [List.mem_append, mem_ite_singleton, mem_ite_singleton] at h;
       rcases h with ⟨_, rfl⟩ | ⟨_, rfl⟩ <;> rfl)

/-- White kingside castling is emitted iff its guard holds -/
theorem castle_mem_white_ks (pos : Position) (us occ : Nat) :
    Move.make 4 6 3 0 ∈ generateCastlingMoves pos us occ ↔
      isInCheck pos = false ∧ us = 0 ∧ (pos.castlingRights &&& 1 ≠ 0 ∧ occ &&& (squareBB 5 ||| squareBB 6) = 0 ∧
        isSquareAttacked pos 5 1 = false ∧ isSquareAttacked pos 6 1 = false) := by
  constructor
  · intro h
    rw [generateCastlingMoves] at h
    split at h
    · exact absurd h (List.not_mem_nil _)
    · next hchk =>
      have hchk2 : isInCheck pos = false := by simpa using hchk
      split at h
      · next hus =>
        rw [List.mem_append, mem_ite_singleton, mem_ite_singleton] at h
        rcases h with ⟨hc, heq⟩ | ⟨hc, heq⟩
        · exact ⟨hchk2, hus, hc⟩
        · exact absurd heq (by decide)
      · next hus =>
        rw [List.mem_append, mem_ite_singleton, mem_ite_singleton] at h
        rcases h with ⟨hc, heq⟩ | ⟨hc, heq⟩
        · exact absurd heq (by decide)
        · exact absurd heq (by decide)
  · rintro ⟨h1, h2, h3⟩
    rw [generateCastlingMoves, if_neg (by simp [h1])]
    rw [if_pos h2]
    apply List.mem_append_left
    rw [mem_ite_singleton]
    exact ⟨h3, rfl⟩

/-- White queenside castling is emitted iff its guard holds -/
theorem castle_mem_white_qs (pos : Position) (us occ : Nat) :
    Move.make 4 2 3 0 ∈ generateCastlingMoves pos us occ ↔
      isInCheck pos = false ∧ us = 0 ∧ (pos.castlingRights &&& 2 ≠ 0 ∧
        occ &&& (squareBB 1 ||| squareBB 2 ||| squareBB 3) = 0 ∧
        isSquareAttacked pos 2 1 = false ∧ isSquareAttacked pos 3 1 = false) := by
  constructor
  · intro h
    rw [generateCastlingMoves] at h
    split at h
    · exact absurd h (List.not_mem_nil _)
    · next hchk =>
      have hchk2 : isInCheck pos = false := by simpa using hchk
      split at h
      · next hus =>
        rw [List.mem_append, mem_ite_singleton, mem_ite_singleton] at h
        rcases h with ⟨hc, heq⟩ | ⟨hc, heq⟩
        · exact absurd heq (by decide)
        · exact ⟨hchk2, hus, hc⟩
      · next hus =>
        rw [List.mem_append, mem_ite_singleton, mem_ite_singleton] at h
        rcases h with ⟨hc, heq⟩ | ⟨hc, heq⟩
        · exact absurd heq (by decide)
        · exact absurd heq (by decide)
  · rintro ⟨h1, h2, h3⟩
    rw [generateCastlingMoves, if_neg (by simp [h1])]
    rw [if_pos h2]
    apply List.mem_append_right
    rw [mem_ite_singleton]
    exact ⟨h3, rfl⟩

/-- Black kingside castling is emitted iff its guard holds -/
theorem castle_mem_black_ks (pos : Position) (us occ : Nat) :
    Move.make 60 62 3 0 ∈ generateCastlingMoves pos us occ ↔
      isInCheck pos = false ∧ ¬ us = 0 ∧ (pos.castlingRights &&& 4 ≠ 0 ∧ occ &&& (squareBB 61 ||| squareBB 62) = 0 ∧
        isSquareAttacked pos 61 0 = false ∧ isSquareAttacked pos 62 0 = false) := by
  constructor
  · intro h
    rw [generateCastlingMoves] at h
    split at h
    · exact absurd h (List.not_mem_nil _)
    · next hchk =>
      have hchk2 : isInCheck pos = false := by simpa using hchk
      split at h
      · next hus =>
        rw [List.mem_append, mem_ite_singleton, mem_ite_singleton] at h
        rcases h with ⟨hc, heq⟩ | ⟨hc, heq⟩
        · exact absurd heq (by decide)
        · exact absurd heq (by decide)
      · next hus =>
        rw [List.mem_append, mem_ite_singleton, mem_ite_singleton] at h
        rcases h with ⟨hc, heq⟩ | ⟨hc, heq⟩
        · exact ⟨hchk2, hus, hc⟩
        · exact absurd heq (by decide)
  · rintro ⟨h1, h2, h3⟩
    rw [generateCastlingMoves, if_neg (by simp [h1])]
    rw [if_neg h2]
    apply List.mem_append_left
    rw [mem_ite_singleton]
    exact ⟨h3, rfl⟩

/-- Black queenside castling is emitted iff its guard holds -/
theorem castle_mem_black_qs (pos : Position) (us occ : Nat) :
    Move.make 60 58 3 0 ∈ generateCastlingMoves pos us occ ↔
      isInCheck pos = false ∧ ¬ us = 0 ∧ (pos.castlingRights &&& 8 ≠ 0 ∧
        occ &&& (squareBB 57 ||| squareBB 58 ||| squareBB 59) = 0 ∧
        isSquareAttacked pos 58 0 = false ∧ isSquareAttacked pos 59 0 = false) := by
  constructor
  · intro h
    rw [generateCastlingMoves] at h
    split at h
    · exact absurd h (List.not_mem_nil _)
    · next hchk =>
      have hchk2 : isInCheck pos = false := by simpa using hchk
      split at h
      · next hus =>
        rw [List.mem_append, mem_ite_singleton, mem_ite_singleton] at h
        rcases h with ⟨hc, heq⟩ | ⟨hc, heq⟩
        · exact absurd heq (by decide)
        · exact absurd heq (by decide)
      · next hus =>
        rw [List.mem_append, mem_ite_singleton, mem_ite_singleton] at h
        rcases h with ⟨hc, heq⟩ | ⟨hc, heq⟩
        · exact absurd heq (by decide)
        · exact ⟨hchk2, hus, hc⟩
  · rintro ⟨h1, h2, h3⟩
    rw [generateCastlingMoves, if_neg (by simp [h1])]
    rw [if_neg h2]
    apply List.mem_append_right
    rw [mem_ite_singleton]
    exact ⟨h3, rfl⟩

/-- A castling-typed move lies in the pseudo-legal list exactly when the
castling generator emits it: no other sub-generator produces that move
type. -/
theorem castle_typed_mem_all (pos : Position) {m : Move} (hm : m.typeBits = 3) :
    m ∈ generateAllMoves pos ↔
      m ∈ generateCastlingMoves pos pos.sideToMove (genOccupied pos) := by
  constructor
  · intro h
    rw [generateAllMoves] at h
    simp only [List.mem_append] at h
    rcases h with (((((h | h) | h) | h) | h) | h) | h
    · exact absurd hm (pawnMoves_not_castling h)
    · obtain ⟨f, t, _, _, _, _, rfl⟩ := pieceMovesBy_shape h
      rw [typeBits_makeN] at hm
      omega
    · obtain ⟨f, t, _, _, _, _, rfl⟩ := pieceMovesBy_shape h
      rw [typeBits_makeN] at hm
      omega
    · obtain ⟨f, t, _, _, _, _, rfl⟩ := pieceMovesBy_shape h
      rw [typeBits_makeN] at hm
      omega
    · obtain ⟨f, t, _, _, _, _, rfl⟩ := pieceMovesBy_shape h
      rw [typeBits_makeN] at hm
      omega
    · obtain ⟨t, _, _, rfl⟩ := kingMoves_shape h
      rw [typeBits_makeN] at hm
      omega
    · exact h
  · intro h
    rw [generateAllMoves]
    exact List.mem_append_right _ h

/-- C3 amended: for every position, each castling move is emitted by
pseudo-legal generation iff the side to move is not in check, the
corresponding right is set, the squares between king and rook are empty
(for queenside this includes the b-file square), and the two squares the
king passes over and lands on are not attacked. The origin square gets no
test of its own — it is covered only by the side-not-in-check condition,
which coincides with "origin unattacked" just when the king stands on its
home square (see the counterexample for the difference). -/
theorem c3_castling_generation_iff (pos : Position) :
    (Move.make 4 6 3 0 ∈ generatePseudoLegalMoves pos ↔
      isInCheck pos = false ∧ pos.sideToMove = 0 ∧
        (pos.castlingRights &&& 1 ≠ 0 ∧
          genOccupied pos &&& (squareBB 5 ||| squareBB 6) = 0 ∧
          isSquareAttacked pos 5 1 = false ∧ isSquareAttacked pos 6 1 = false)) ∧
    (Move.make 4 2 3 0 ∈ generatePseudoLegalMoves pos ↔
      isInCheck pos = false ∧ pos.sideToMove = 0 ∧
        (pos.castlingRights &&& 2 ≠ 0 ∧
          genOccupied pos &&& (squareBB 1 ||| squareBB 2 ||| squareBB 3) = 0 ∧
          isSquareAttacked pos 2 1 = false ∧ isSquareAttacked pos 3 1 = false)) ∧
    (Move.make 60 62 3 0 ∈ generatePseudoLegalMoves pos ↔
      isInCheck pos = false ∧ ¬ pos.sideToMove = 0 ∧
        (pos.castlingRights &&& 4 ≠ 0 ∧
          genOccupied pos &&& (squareBB 61 ||| squareBB 62) = 0 ∧
          isSquareAttacked pos 61 0 = false ∧ isSquareAttacked pos 62 0 = false)) ∧
    (Move.make 60 58 3 0 ∈ generatePseudoLegalMoves pos ↔
      isInCheck pos = false ∧ ¬ pos.sideToMove = 0 ∧
        (pos.castlingRights &&& 8 ≠ 0 ∧
          genOccupied pos &&& (squareBB 57 ||| squareBB 58 ||| squareBB 59) = 0 ∧
          isSquareAttacked pos 58 0 = false ∧ isSquareAttacked pos 59 0 = false)) := by
  refine ⟨?_, ?_, ?_, ?_⟩
  · exact (castle_typed_mem_all pos (by decide)).trans
      (castle_mem_white_ks pos pos.sideToMove (genOccupied pos))
  · exact (castle_typed_mem_all pos (by decide)).trans
      (castle_mem_white_qs pos pos.sideToMove (genOccupied pos))
  · exact (castle_typed_mem_all pos (by decide)).trans
      (castle_mem_black_ks pos pos.sideToMove (genOccupied pos))
  · exact (castle_typed_mem_all pos (by decide)).trans
      (castle_mem_black_qs pos pos.sideToMove (genOccupied pos))

end Chess
